import Mathlib

set_option maxRecDepth 100000

/-!
Verification of the BLE IPSP Router example (BLE_IPSP_Router.cydsn/main.c).

The C program is embedded shallowly: advertisement payloads and memory buffers
become total byte functions `Nat → Nat` (every read is taken modulo 256, as the
hardware reads `uint8` cells), the large `AppCallback` event switch becomes a
pure `dispatch` function from an application state and an event to a new state
plus a list of outward stack calls, and the command branch of `main` becomes
`mainStep`.  Constants that live in headers generated by the BLE component
(`main.h`, the `ble` component headers) are not part of the two source files;
they are modelled from the spec and from the Bluetooth assigned numbers, and
none of the proved properties depends on their concrete numeric values.
-/

namespace BleIpspRouter

/-- Advertisement field type: incomplete list of 16-bit service UUIDs.
Modelled from the spec: the BLE component header holding this constant is not in
src; the value is the standard Bluetooth assigned number for this AD type. -/
def CYBLE_GAP_ADV_INCOMPL_16UUID : Nat := 2

/-- Advertisement field type: complete list of 16-bit service UUIDs.
Modelled from the spec: the BLE component header holding this constant is not in
src; the value is the standard Bluetooth assigned number for this AD type. -/
def CYBLE_GAP_ADV_COMPL_16UUID : Nat := 3

/-- 16-bit UUID of the Internet Protocol Support Service (0x1820).
Modelled from the spec: defined by the BLE component headers, not in src. -/
def CYBLE_UUID_INTERNET_PROTOCOL_SUPPORT_SERVICE : Nat := 6176

/-- Size in bytes of a Bluetooth device address.
Modelled from the spec: defined by the BLE component headers, not in src. -/
def CYBLE_GAP_BD_ADDR_SIZE : Nat := 6

/-- Fixed capacity of the peer registry array `peerAddr`.
Modelled from the spec: defined in main.h, which is not in src; the proofs do
not depend on the concrete value. -/
def CYBLE_MAX_ADV_DEVICES : Nat := 63

/-- LE protocol/service multiplexer number for IPSP.
Modelled from the spec: defined by the BLE component headers, not in src. -/
def CYBLE_L2CAP_PSM_LE_PSM_IPSP : Nat := 35

/-- Receive credit low-water mark registered with the L2CAP layer at stack-on.
Modelled from the spec: defined in main.h, which is not in src; the proofs do
not depend on the concrete value. -/
def LE_WATER_MARK_IPSP : Nat := 50

/-- Credit count handed to the peer on channel open and on each replenishment.
Modelled from the spec: defined in main.h, which is not in src; the proofs do
not depend on the concrete value. -/
def LE_DATA_CREDITS_IPSP : Nat := 1000

/-- Local L2CAP MTU (maximum reassembled message size) sent in the channel-open
request.  Modelled from the spec: defined by the BLE component configuration,
not in src. -/
def CYBLE_L2CAP_MTU : Nat := 1280

/-- Local L2CAP MPS (maximum single-fragment size) sent in the channel-open
request.  Modelled from the spec: defined by the BLE component configuration,
not in src. -/
def CYBLE_L2CAP_MPS : Nat := 1280

/-- Length in bytes of the loopback payload written by the transfer loop.
Modelled from the spec: defined in main.h, which is not in src; the proofs do
not depend on the concrete value. -/
def L2CAP_MAX_LEN : Nat := 1280

/-- `STATE_INIT` from main.h (not in src); only its distinctness from
`STATE_CONNECTING` matters. -/
def STATE_INIT : Nat := 0

/-- `STATE_CONNECTING` from main.h (not in src). -/
def STATE_CONNECTING : Nat := 1

/-- `CyBle_Get16ByPtr`: read a little-endian 16-bit value from two consecutive
bytes of memory. -/
def cyBleGet16ByPtr (data : Nat → Nat) (p : Nat) : Nat :=
  data p % 256 + (data (p + 1) % 256) * 256

/-- The inner `for` loop of `CheckAdvPacketForServiceUuid`: scan indices
`i = 0, 2, 4, ...` with `i < bound`, and report whether
`CyBle_Get16ByPtr(&data[advIndex + 2 + i])` hits `uuid` at some such `i`. -/
def uuidSearchB (data : Nat → Nat) (uuid advIndex bound : Nat) : Bool :=
  (List.range bound).any
    (fun i => i % 2 == 0 && cyBleGet16ByPtr data (advIndex + 2 + i) == uuid)

/-- One iteration of the body of the `do`-`while` loop in
`CheckAdvPacketForServiceUuid`, computing the value of `servicePresent` after
the inner `for` loop at field start `advIndex`.  The loop bound in the C source
is the unsigned expression `data[advIndex] - 1u`: for a zero length byte this
underflows to `2^32 - 1`, and because the loop index steps through even values
of a `uint32` it then wraps around and never reaches the bound, so the loop
terminates only if a match is found; the result `none` marks that
non-terminating case. -/
def fieldSp (data : Nat → Nat) (uuid advIndex : Nat) : Option Nat :=
  if data (advIndex + 1) % 256 = CYBLE_GAP_ADV_INCOMPL_16UUID ∨
     data (advIndex + 1) % 256 = CYBLE_GAP_ADV_COMPL_16UUID then
    if data advIndex % 256 = 0 then
      if uuidSearchB data uuid advIndex 4294967295 then some 1 else none
    else
      if uuidSearchB data uuid advIndex (data advIndex % 256 - 1) then some 1 else some 0
  else
    some 0

/-- The outer `do`-`while` loop of `CheckAdvPacketForServiceUuid`, fuelled.
The body always executes once (the loop is `do`-`while`); it then repeats while
`advIndex < dataLen` and no service was found.  Each iteration advances
`advIndex` by `data[advIndex] + 1 ≥ 1`, so fuel `dataLen` always suffices; the
fuel-exhaustion branch is unreachable from `CheckAdvPacketForServiceUuid`. -/
def checkAdvGo (data : Nat → Nat) (dataLen uuid : Nat) : Nat → Nat → Option Nat
  | 0, advIndex =>
    (fieldSp data uuid advIndex).bind fun sp =>
      if advIndex + data advIndex % 256 + 1 < dataLen ∧ sp = 0 then none
      else some sp
  | fuel + 1, advIndex =>
    (fieldSp data uuid advIndex).bind fun sp =>
      if advIndex + data advIndex % 256 + 1 < dataLen ∧ sp = 0 then
        checkAdvGo data dataLen uuid fuel (advIndex + data advIndex % 256 + 1)
      else some sp

/-- `CheckAdvPacketForServiceUuid` from main.c, lines 61-86, over a report with
payload bytes `data` and declared length `dataLen`.  `some r` means the C
function returns `r`; `none` means the inner comparison loop never terminates
(see `fieldSp`). -/
def CheckAdvPacketForServiceUuid (data : Nat → Nat) (dataLen uuid : Nat) : Option Nat :=
  checkAdvGo data dataLen uuid dataLen 0

/-- Field start offsets of a length-prefixed advertisement payload, read off the
spec's words: fields are `[length][type][bytes...]`, each field starts where the
previous one ended, and fields are scanned sequentially until the declared
payload length is exhausted.  Fuelled for executability; fuel `dataLen` always
suffices because each field occupies at least one byte. -/
def specFieldStartsAux (data : Nat → Nat) (dataLen : Nat) : Nat → Nat → List Nat
  | 0, _ => []
  | fuel + 1, pos =>
    if pos < dataLen then
      pos :: specFieldStartsAux data dataLen fuel (pos + data pos % 256 + 1)
    else []

/-- All field start offsets of the payload, per the spec's field encoding. -/
def specFieldStarts (data : Nat → Nat) (dataLen : Nat) : List Nat :=
  specFieldStartsAux data dataLen dataLen 0

/-- Spec-side reading of one field, from the claim's words: the field type byte
is one of the two 16-bit-UUID-list types, and the field's data bytes, read as
consecutive 16-bit values at 2-byte-aligned offsets within the field's declared
length, include the target uuid. -/
def fieldMatchesB (data : Nat → Nat) (uuid pos : Nat) : Bool :=
  (data (pos + 1) % 256 == CYBLE_GAP_ADV_INCOMPL_16UUID ||
   data (pos + 1) % 256 == CYBLE_GAP_ADV_COMPL_16UUID) &&
  uuidSearchB data uuid pos (data pos % 256 - 1)

/-- Spec-side reading of the whole filter, from the claim's words: the report
contains at least one 16-bit-UUID-list field whose aligned 16-bit values include
the target uuid. -/
def specMatchB (data : Nat → Nat) (dataLen uuid : Nat) : Bool :=
  (specFieldStarts data dataLen).any (fieldMatchesB data uuid)

/-- One entry of the peer registry array `peerAddr`: the six copied address
bytes and the address kind byte stored from the report. -/
structure PeerEntry where
  bdAddr : List Nat
  addrType : Nat
deriving DecidableEq

/-- The all-zero entry a fresh `CYBLE_GAP_BD_ADDR_T` array slot holds. -/
def defaultPeer : PeerEntry :=
  { bdAddr := List.replicate CYBLE_GAP_BD_ADDR_SIZE 0, addrType := 0 }

/-- `CYBLE_GAPC_ADV_REPORT_T`: the fields of a scan progress result the handler
reads.  `data` is the advertisement payload as a total byte function. -/
structure AdvReport where
  peerBdAddr : List Nat
  peerAddrType : Nat
  data : Nat → Nat
  dataLen : Nat

/-- `CYBLE_L2CAP_CBFC_CONN_CNF_PARAM_T`: the channel-open confirmation
parameters stored into the global `l2capParameters`. -/
structure ConnCnfParam where
  bdHandle : Nat
  lCid : Nat
  response : Nat
  mtu : Nat
  mps : Nat
  credit : Nat
deriving DecidableEq

/-- The stack connection state returned by `CyBle_GetState`. -/
inductive CyBleState where
  | disconnected
  | scanning
  | connecting
  | connected
deriving DecidableEq

/-- The events of `AppCallback` that touch the modelled state or emit one of
the modelled outward calls; every other case of the C switch only prints and is
collapsed into `otherEvent`. -/
inductive BleEvent where
  | stackOn
  | scanProgressResult (report : AdvReport)
  | scanStartStop
  | deviceDisconnected (reason : Nat)
  | gattConnectInd
  | l2capConnCnf (param : ConnCnfParam)
  | l2capDisconnInd (reason : Nat)
  | l2capDataRead (rxData : Nat → Nat) (rxDataLength : Nat)
  | l2capRxCreditInd (lCid credit : Nat)
  | otherEvent (code : Nat)

/-- Outward calls from the application into the BLE stack (plus the two debug
prints that claims refer to as reporting). -/
inductive Action where
  | registerPsm (psm lowMark : Nat)
  | startScan
  | stopScan
  | connectDevice (peer : PeerEntry)
  | l2capConnectReq (mtu mps credits : Nat)
  | sendFlowControlCredit (lCid credits : Nat)
  | l2capDataWrite (lCid : Nat) (payload : Nat → Nat) (len : Nat)
  | cancelConnect
  | gapDisconnect
  | startDiscovery
  | hibernate
  | printWraparoundFailed
  | printConnCnf (response : Nat)

/-- The mutable globals of main.c that the claims are about: `l2capConnected`,
`l2capParameters`, the live prefix `peerAddr[0..advDevices)` of the registry
(so `advDevices = peerList.length`), `deviceN`, `state`, `custom_command`, the
loopback buffer viewed as bytes, and the static `counter` of the transfer
command. -/
structure AppState where
  l2capConnected : Bool
  l2capParameters : ConnCnfParam
  peerList : List PeerEntry
  deviceN : Nat
  state : Nat
  custom_command : Nat
  ipv6LoopbackBuffer : Nat → Nat
  counter : Nat

/-- The initial values of the globals at program start. -/
def initState : AppState where
  l2capConnected := false
  l2capParameters := ⟨0, 0, 0, 0, 0, 0⟩
  peerList := []
  deviceN := 0
  state := STATE_INIT
  custom_command := 0
  ipv6LoopbackBuffer := fun _ => 0
  counter := 0

/-- `memcmp(f, g, n) == 0` over byte memory: the first `n` bytes agree. -/
def memcmpZero (f g : Nat → Nat) (n : Nat) : Bool :=
  (List.range n).all (fun i => f i % 256 == g i % 256)

/-- The six address bytes `memcmp`/`memcpy` touch in the scan result handler. -/
def addrKey (l : List Nat) : List Nat :=
  l.take CYBLE_GAP_BD_ADDR_SIZE

/-- The `CYBLE_EVT_GAPC_SCAN_PROGRESS_RESULT` arm of `AppCallback`
(main.c lines 178-220): filter on the IPSS UUID, scan the registry for the same
address, and append a new entry only when the address is new and the registry is
not full.  `none` propagates a non-terminating `CheckAdvPacketForServiceUuid`
call. -/
def scanResultHandler (s : AppState) (report : AdvReport) : Option AppState :=
  match CheckAdvPacketForServiceUuid report.data report.dataLen
      CYBLE_UUID_INTERNET_PROTOCOL_SUPPORT_SERVICE with
  | none => none
  | some r =>
    if r ≠ 0 then
      let key := addrKey report.peerBdAddr
      if (∀ e ∈ s.peerList, e.bdAddr ≠ key) ∧ s.peerList.length < CYBLE_MAX_ADV_DEVICES then
        some { s with peerList := s.peerList ++ [⟨key, report.peerAddrType⟩] }
      else
        some s
    else
      some s

/-- `AppCallback` (main.c lines 118-476) as a pure step: from the globals, the
stack state `CyBle_GetState` would report, and the event, to the new globals and
the outward calls made, in order.  `none` marks the one way the handler can fail
to return: a non-terminating advertisement parse. -/
def dispatch (s : AppState) (bleState : CyBleState) (ev : BleEvent) :
    Option (AppState × List Action) :=
  match ev with
  | .stackOn =>
    some (s, [.registerPsm CYBLE_L2CAP_PSM_LE_PSM_IPSP LE_WATER_MARK_IPSP, .startScan])
  | .scanProgressResult report =>
    (scanResultHandler s report).map (fun s' => (s', []))
  | .scanStartStop =>
    if bleState = CyBleState.disconnected then
      if s.state = STATE_CONNECTING then
        some (s, [.connectDevice (s.peerList.getD s.deviceN defaultPeer)])
      else
        some (s, [.hibernate])
    else
      some (s, [])
  | .deviceDisconnected _ =>
    some (s, [.startScan])
  | .gattConnectInd =>
    some (s, [.l2capConnectReq CYBLE_L2CAP_MTU CYBLE_L2CAP_MPS LE_DATA_CREDITS_IPSP])
  | .l2capConnCnf param =>
    some ({ s with l2capParameters := param, l2capConnected := true },
      [.printConnCnf param.response])
  | .l2capDisconnInd _ =>
    some ({ s with l2capConnected := false }, [])
  | .l2capDataRead rxData _ =>
    if memcmpZero s.ipv6LoopbackBuffer rxData L2CAP_MAX_LEN then
      some ({ s with custom_command := 49 }, [])
    else
      some (s, [.printWraparoundFailed])
  | .l2capRxCreditInd lCid _ =>
    some (s, [.sendFlowControlCredit lCid LE_DATA_CREDITS_IPSP])
  | .otherEvent _ =>
    some (s, [])

/-- Byte `n` of the loopback buffer after the transfer command refills it
starting from counter value `counter`: the buffer is a little-endian `uint16`
array whose element `i` is `counter + i` modulo `2^16`. -/
def fillLoopbackByte (counter n : Nat) : Nat :=
  let w := (counter + n / 2) % 65536
  if n % 2 = 0 then w % 256 else w / 256

/-- The `switch (command)` of `main` (main.c lines 662-742): the effect of one
console or self-issued command on the globals, plus the outward calls made.
`digit` is the second character the `z` command reads. -/
def runCommand (s : AppState) (command digit : Nat) : AppState × List Action :=
  if command = 99 then
    ({ s with state := STATE_CONNECTING }, [.stopScan])
  else if command = 118 then
    (s, [.cancelConnect])
  else if command = 100 then
    (s, [.gapDisconnect])
  else if command = 115 then
    (s, [.startDiscovery])
  else if command = 122 then
    if 48 ≤ digit ∧ digit ≤ 57 then ({ s with deviceN := digit - 48 }, []) else (s, [])
  else if command = 49 then
    ({ s with
        ipv6LoopbackBuffer := fillLoopbackByte s.counter,
        counter := (s.counter + L2CAP_MAX_LEN / 2) % 65536 },
      [.l2capDataWrite s.l2capParameters.lCid (fillLoopbackByte s.counter) L2CAP_MAX_LEN])
  else
    (s, [])

/-- One pass of the command block in the `for(;;)` loop of `main` (lines
655-743): a command runs when the UART delivered a character or when a pending
`custom_command` exists and the stack is not busy; `custom_command` overrides
the UART character and is consumed. -/
def mainStep (s : AppState) (uartChar digit : Nat) (busy : Bool) : AppState × List Action :=
  if uartChar ≠ 0 ∨ (s.custom_command ≠ 0 ∧ busy = false) then
    if s.custom_command ≠ 0 then
      runCommand { s with custom_command := 0 } s.custom_command digit
    else
      runCommand s uartChar digit
  else
    (s, [])

/-- Modelled from the spec: the effect of the outward calls on the stack state
`CyBle_GetState` reports (the stack implementation is not in src).  Starting a
scan enters scanning, stopping it returns to disconnected, a connect request
enters connecting. -/
def stackApply (bs : CyBleState) (a : Action) : CyBleState :=
  match a with
  | .startScan => .scanning
  | .stopScan => .disconnected
  | .connectDevice _ => .connecting
  | _ => bs

/-- Modelled from the spec: the stack state already in force when an event is
delivered to the application (the stack implementation is not in src).  A
disconnection event arrives with the stack back in the disconnected state; a
connection indication arrives with it connected. -/
def eventStackState (bs : CyBleState) (ev : BleEvent) : CyBleState :=
  match ev with
  | .deviceDisconnected _ => .disconnected
  | .gattConnectInd => .connected
  | _ => bs

/-- One delivered event end to end: the stack moves to its delivery state, the
application handler runs, and the outward calls it makes move the stack state
further. -/
def fullStep (s : AppState) (bs : CyBleState) (ev : BleEvent) :
    Option (AppState × CyBleState) :=
  let bs1 := eventStackState bs ev
  (dispatch s bs1 ev).map (fun p => (p.1, p.2.foldl stackApply bs1))

/-- A sequence of delivered events processed by the handler, each with the stack
state in force when it is dispatched. -/
def processEvents (s : AppState) : List (CyBleState × BleEvent) → Option AppState
  | [] => some s
  | e :: rest =>
    ((dispatch s e.1 e.2).map Prod.fst).bind fun s' => processEvents s' rest

/-- Modelled from the spec: the stack raises `CYBLE_EVT_L2CAP_CBFC_RX_CREDIT_IND`
for a channel exactly when the remaining receive credits cross the registered
low-water mark from above to at-or-below (the stack implementation is not in
src; the mark registered at stack-on is `LE_WATER_MARK_IPSP`). -/
def rxCreditIndRaised (creditsBefore creditsAfter : Nat) : Prop :=
  LE_WATER_MARK_IPSP < creditsBefore ∧ creditsAfter ≤ LE_WATER_MARK_IPSP

/-- The field start offsets the `do`-`while` loop visits: offset 0 is visited
even when the declared payload length is 0, because the loop body runs before
the condition is tested. -/
def scannedStarts (data : Nat → Nat) (dataLen : Nat) : List Nat :=
  if dataLen = 0 then [0] else specFieldStarts data dataLen

/-- The payload of the C1 counterexample: a field with length byte 0 and the
incomplete-16-bit-UUID-list type byte, followed by the bytes 0x20 0x18. -/
def advDataC1 : Nat → Nat := fun n => [0, 2, 32, 24].getD n 0

/-- A well-formed payload: one complete-16-bit-UUID-list field of length 3
carrying the 16-bit value 0x1820. -/
def advDataOk : Nat → Nat := fun n => [3, 3, 32, 24].getD n 0

/-- The payload of the C10 counterexample: a field with length byte 0 and the
incomplete-16-bit-UUID-list type byte, with every other byte zero. -/
def advDataDiv : Nat → Nat := fun n => [0, 2].getD n 0

/-- A channel-open confirmation whose response field carries a nonzero (error)
status, used by the C2 counterexample. -/
def errConnCnf : ConnCnfParam := ⟨1, 64, 2, 100, 100, 5⟩

/-- A scan progress report from address 01:02:03:04:05:06 (public) whose
payload advertises the IPSS uuid, used by the C4 witness. -/
def rptOk : AdvReport := ⟨[1, 2, 3, 4, 5, 6], 0, advDataOk, 4⟩

/-- The C4 witness event trace: the same matching sighting delivered twice. -/
def evsC4 : List (CyBleState × BleEvent) :=
  [(CyBleState.scanning, BleEvent.scanProgressResult rptOk),
   (CyBleState.scanning, BleEvent.scanProgressResult rptOk)]

/-- A registry entry with address 01:02:03:04:05:06 and address kind 0, used by
the C9 witness. -/
def peC9 : PeerEntry := ⟨[1, 2, 3, 4, 5, 6], 0⟩

/-- An application state whose registry already holds `peC9`. -/
def sC9 : AppState := { initState with peerList := [peC9] }

/-- A matching sighting of the same address as `peC9` but with address kind 1,
used by the C9 witness. -/
def rptC9 : AdvReport := ⟨[1, 2, 3, 4, 5, 6], 1, advDataOk, 4⟩

/-- An application state with a selectable peer and the connecting intent
recorded, used by the C7 witness. -/
def sC7 : AppState :=
  { initState with peerList := [peC9], deviceN := 0, state := STATE_CONNECTING }

/-- An application state whose `custom_command` holds the pending transfer
command, used by the C5 witness. -/
def sArmed : AppState := { initState with custom_command := 49 }

example : CheckAdvPacketForServiceUuid advDataOk 4 6176 = some 1 := by
  decide

example : specMatchB advDataOk 4 6176 = true := by
  decide

example : CheckAdvPacketForServiceUuid (fun n => [3, 3, 32, 25].getD n 0) 4 6176 = some 0 := by
  decide

example : CheckAdvPacketForServiceUuid (fun n => [2, 1, 0, 3, 3, 32, 24].getD n 0) 7 6176 = some 1 := by
  decide

theorem checkAdvGo_zero (data : Nat → Nat) (dataLen uuid advIndex : Nat) :
    checkAdvGo data dataLen uuid 0 advIndex =
      (fieldSp data uuid advIndex).bind fun sp =>
        if advIndex + data advIndex % 256 + 1 < dataLen ∧ sp = 0 then none
        else some sp := rfl

theorem checkAdvGo_succ (data : Nat → Nat) (dataLen uuid fuel advIndex : Nat) :
    checkAdvGo data dataLen uuid (fuel + 1) advIndex =
      (fieldSp data uuid advIndex).bind fun sp =>
        if advIndex + data advIndex % 256 + 1 < dataLen ∧ sp = 0 then
          checkAdvGo data dataLen uuid fuel (advIndex + data advIndex % 256 + 1)
        else some sp := rfl

theorem specFieldStartsAux_succ (data : Nat → Nat) (dataLen fuel pos : Nat) :
    specFieldStartsAux data dataLen (fuel + 1) pos =
      if pos < dataLen then
        pos :: specFieldStartsAux data dataLen fuel (pos + data pos % 256 + 1)
      else [] := rfl

theorem specFieldStartsAux_fuel (data : Nat → Nat) (dataLen : Nat) :
    ∀ f₁ f₂ pos, dataLen ≤ pos + f₁ → dataLen ≤ pos + f₂ →
      specFieldStartsAux data dataLen f₁ pos = specFieldStartsAux data dataLen f₂ pos := by
  intro f₁
  induction f₁ with
  | zero =>
    intro f₂ pos h₁ h₂
    cases f₂ with
    | zero => rfl
    | succ f₂ =>
      have hlt : ¬ pos < dataLen := by omega
      simp [specFieldStartsAux_succ, hlt, specFieldStartsAux]
  | succ f₁ ih =>
    intro f₂ pos h₁ h₂
    cases f₂ with
    | zero =>
      have hlt : ¬ pos < dataLen := by omega
      simp [specFieldStartsAux_succ, hlt, specFieldStartsAux]
    | succ f₂ =>
      rw [specFieldStartsAux_succ, specFieldStartsAux_succ]
      by_cases hlt : pos < dataLen
      · rw [if_pos hlt, if_pos hlt,
          ih f₂ (pos + data pos % 256 + 1) (by omega) (by omega)]
      · rw [if_neg hlt, if_neg hlt]

theorem fieldSp_eq_of_len_ne_zero (data : Nat → Nat) (uuid advIndex : Nat)
    (h : data advIndex % 256 ≠ 0) :
    fieldSp data uuid advIndex =
      some (if fieldMatchesB data uuid advIndex = true then 1 else 0) := by
  unfold fieldSp fieldMatchesB
  by_cases ht : data (advIndex + 1) % 256 = CYBLE_GAP_ADV_INCOMPL_16UUID ∨
      data (advIndex + 1) % 256 = CYBLE_GAP_ADV_COMPL_16UUID
  · rw [if_pos ht, if_neg h]
    rcases ht with ht | ht <;>
      cases hu : uuidSearchB data uuid advIndex (data advIndex % 256 - 1) <;>
        simp [ht, hu]
  · rw [if_neg ht]
    have h1 : ¬ (data (advIndex + 1) % 256 = 2 ∨ data (advIndex + 1) % 256 = 3) := by
      simpa [CYBLE_GAP_ADV_INCOMPL_16UUID, CYBLE_GAP_ADV_COMPL_16UUID] using ht
    simp [h1, CYBLE_GAP_ADV_INCOMPL_16UUID, CYBLE_GAP_ADV_COMPL_16UUID]

theorem checkAdvGo_spec (data : Nat → Nat) (dataLen uuid : Nat) :
    ∀ fuel advIndex, advIndex < dataLen → dataLen ≤ advIndex + fuel + 1 →
      (∀ pos ∈ specFieldStartsAux data dataLen (fuel + 1) advIndex, data pos % 256 ≠ 0) →
      ∃ r, checkAdvGo data dataLen uuid fuel advIndex = some r ∧
        (r ≠ 0 ↔ (specFieldStartsAux data dataLen (fuel + 1) advIndex).any
          (fieldMatchesB data uuid) = true) := by
  intro fuel
  induction fuel with
  | zero =>
    intro advIndex h₁ h₂ hnz
    have hmem : advIndex ∈ specFieldStartsAux data dataLen 1 advIndex := by
      rw [specFieldStartsAux_succ, if_pos h₁]
      exact List.mem_cons_self _ _
    have hlen := hnz advIndex hmem
    have hsp := fieldSp_eq_of_len_ne_zero data uuid advIndex hlen
    have hc : ¬ (advIndex + data advIndex % 256 + 1 < dataLen ∧
        (if fieldMatchesB data uuid advIndex = true then 1 else 0) = 0) := by
      rintro ⟨hlt, -⟩; omega
    refine ⟨if fieldMatchesB data uuid advIndex = true then 1 else 0, ?_, ?_⟩
    · rw [checkAdvGo_zero, hsp, Option.some_bind, if_neg hc]
    · rw [specFieldStartsAux_succ, if_pos h₁, specFieldStartsAux]
      cases hfm : fieldMatchesB data uuid advIndex <;> simp [hfm]
  | succ fuel ih =>
    intro advIndex h₁ h₂ hnz
    have hmem : advIndex ∈ specFieldStartsAux data dataLen (fuel + 2) advIndex := by
      rw [specFieldStartsAux_succ, if_pos h₁]
      exact List.mem_cons_self _ _
    have hlen := hnz advIndex hmem
    have hsp := fieldSp_eq_of_len_ne_zero data uuid advIndex hlen
    have hlist : specFieldStartsAux data dataLen (fuel + 2) advIndex =
        advIndex :: specFieldStartsAux data dataLen (fuel + 1)
          (advIndex + data advIndex % 256 + 1) := by
      rw [specFieldStartsAux_succ, if_pos h₁]
    by_cases hfm : fieldMatchesB data uuid advIndex = true
    · refine ⟨1, ?_, ?_⟩
      · rw [checkAdvGo_succ, hsp, Option.some_bind, if_pos hfm, if_neg]
        rintro ⟨-, h⟩; omega
      · rw [hlist]
        simp [hfm]
    · have hfm0 : fieldMatchesB data uuid advIndex = false := by
        cases h : fieldMatchesB data uuid advIndex
        · rfl
        · exact absurd h hfm
      have hsp0 : fieldSp data uuid advIndex = some 0 := by
        rw [hsp, hfm0]
        simp
      by_cases hrec : advIndex + data advIndex % 256 + 1 < dataLen
      · have hnz' : ∀ pos ∈ specFieldStartsAux data dataLen (fuel + 1)
            (advIndex + data advIndex % 256 + 1), data pos % 256 ≠ 0 := by
          intro pos hp
          exact hnz pos (by rw [hlist]; exact List.mem_cons_of_mem _ hp)
        obtain ⟨r, hr, hiff⟩ := ih (advIndex + data advIndex % 256 + 1) hrec (by omega) hnz'
        refine ⟨r, ?_, ?_⟩
        · rw [checkAdvGo_succ, hsp0, Option.some_bind, if_pos ⟨hrec, rfl⟩]
          exact hr
        · rw [hlist]
          simpa [hfm0] using hiff
      · refine ⟨0, ?_, ?_⟩
        · rw [checkAdvGo_succ, hsp0, Option.some_bind, if_neg]
          rintro ⟨h, -⟩; exact hrec h
        · have hnil : specFieldStartsAux data dataLen (fuel + 1)
              (advIndex + data advIndex % 256 + 1) = [] := by
            rw [specFieldStartsAux_succ, if_neg hrec]
          rw [hlist, hnil]
          simp [hfm0]

theorem checkAdvGo_isSome (data : Nat → Nat) (dataLen uuid : Nat) :
    ∀ fuel advIndex, dataLen ≤ advIndex + fuel + 1 →
      data advIndex % 256 ≠ 0 →
      (∀ pos ∈ specFieldStartsAux data dataLen (fuel + 1) advIndex, data pos % 256 ≠ 0) →
      (checkAdvGo data dataLen uuid fuel advIndex).isSome = true := by
  intro fuel
  induction fuel with
  | zero =>
    intro advIndex h₂ hlen hnz
    have hsp := fieldSp_eq_of_len_ne_zero data uuid advIndex hlen
    have hc : ¬ (advIndex + data advIndex % 256 + 1 < dataLen ∧
        (if fieldMatchesB data uuid advIndex = true then 1 else 0) = 0) := by
      rintro ⟨hlt, -⟩; omega
    rw [checkAdvGo_zero, hsp, Option.some_bind, if_neg hc]
    rfl
  | succ fuel ih =>
    intro advIndex h₂ hlen hnz
    have hsp := fieldSp_eq_of_len_ne_zero data uuid advIndex hlen
    rw [checkAdvGo_succ, hsp, Option.some_bind]
    by_cases hc : advIndex + data advIndex % 256 + 1 < dataLen ∧
        (if fieldMatchesB data uuid advIndex = true then 1 else 0) = 0
    · rw [if_pos hc]
      have hadv : advIndex < dataLen := by omega
      have hlist : specFieldStartsAux data dataLen (fuel + 2) advIndex =
          advIndex :: specFieldStartsAux data dataLen (fuel + 1)
            (advIndex + data advIndex % 256 + 1) := by
        rw [specFieldStartsAux_succ, if_pos hadv]
      have hnz' : ∀ pos ∈ specFieldStartsAux data dataLen (fuel + 1)
          (advIndex + data advIndex % 256 + 1), data pos % 256 ≠ 0 := by
        intro pos hp
        exact hnz pos (by rw [hlist]; exact List.mem_cons_of_mem _ hp)
      have hheadmem : advIndex + data advIndex % 256 + 1 ∈
          specFieldStartsAux data dataLen (fuel + 1)
            (advIndex + data advIndex % 256 + 1) := by
        rw [specFieldStartsAux_succ, if_pos hc.1]
        exact List.mem_cons_self _ _
      exact ih (advIndex + data advIndex % 256 + 1) (by omega) (hnz' _ hheadmem) hnz'
    · rw [if_neg hc]
      rfl

/-- C1 (amended): on every report whose declared payload length is positive and
whose scanned fields all have a nonzero length byte,
`CheckAdvPacketForServiceUuid` returns a value, and that value is nonzero
exactly when some 16-bit-UUID-list field of the payload carries the target uuid
at a 2-byte-aligned offset within the field's declared length. -/
theorem checkAdv_matches_spec_on_wellformed (data : Nat → Nat) (dataLen uuid : Nat)
    (h0 : 0 < dataLen)
    (hnz : ∀ pos ∈ specFieldStarts data dataLen, data pos % 256 ≠ 0) :
    ∃ r, CheckAdvPacketForServiceUuid data dataLen uuid = some r ∧
      (r ≠ 0 ↔ specMatchB data dataLen uuid = true) := by
  have hfe : specFieldStartsAux data dataLen (dataLen + 1) 0 =
      specFieldStarts data dataLen :=
    specFieldStartsAux_fuel data dataLen (dataLen + 1) dataLen 0 (by omega) (by omega)
  have hnz' : ∀ pos ∈ specFieldStartsAux data dataLen (dataLen + 1) 0,
      data pos % 256 ≠ 0 := by
    rw [hfe]; exact hnz
  obtain ⟨r, hr, hiff⟩ := checkAdvGo_spec data dataLen uuid dataLen 0 h0 (by omega) hnz'
  rw [hfe] at hiff
  exact ⟨r, hr, hiff⟩

/-- C1 witness: the amended statement applied to a concrete well-formed report
carrying the 0x1820 uuid in a complete-16-bit-UUID-list field. -/
theorem checkAdv_matches_spec_witness :
    (0 < 4 ∧ ∀ pos ∈ specFieldStarts advDataOk 4, advDataOk pos % 256 ≠ 0) ∧
    ∃ r, CheckAdvPacketForServiceUuid advDataOk 4 6176 = some r ∧
      (r ≠ 0 ↔ specMatchB advDataOk 4 6176 = true) :=
  ⟨⟨by decide, by decide⟩,
    checkAdv_matches_spec_on_wellformed advDataOk 4 6176 (by decide) (by decide)⟩

/-- C1 counterexample: on a report whose first field has a zero length byte and
a 16-bit-UUID-list type byte, the function returns 1 although no field of the
payload carries the target uuid within its declared length — the unsigned
underflow of `data[advIndex] - 1u` lets the inner loop read far past the field.
This refutes the claim's iff as stated. -/
theorem checkAdv_spec_mismatch_zero_length_field :
    CheckAdvPacketForServiceUuid advDataC1 4 6176 = some 1 ∧
      specMatchB advDataC1 4 6176 = false := by
  constructor
  · have hs : uuidSearchB advDataC1 6176 0 4294967295 = true := by
      apply List.any_eq_true.mpr
      exact ⟨0, List.mem_range.mpr (by norm_num), by decide⟩
    have hf : fieldSp advDataC1 6176 0 = some 1 := by
      unfold fieldSp
      rw [if_pos (by decide), if_pos (by decide), hs, if_pos rfl]
    show checkAdvGo advDataC1 4 6176 (3 + 1) 0 = some 1
    rw [checkAdvGo_succ, hf, Option.some_bind, if_neg]
    rintro ⟨-, h⟩; omega
  · decide

/-- C10 (amended): the outer scan loop always makes progress and its body runs
at least once even for a zero declared length, and the function terminates on
every report whose scanned fields all have a nonzero length byte; with a zero
length byte the inner comparison loop can fail to terminate. -/
theorem checkAdv_terminates_on_nonzero_length_fields :
    (∀ (data : Nat → Nat) (dataLen uuid : Nat),
      (∀ pos ∈ scannedStarts data dataLen, data pos % 256 ≠ 0) →
      (CheckAdvPacketForServiceUuid data dataLen uuid).isSome = true)
    ∧ (∀ (data : Nat → Nat) (uuid : Nat),
      CheckAdvPacketForServiceUuid data 0 uuid = fieldSp data uuid 0) := by
  have hbody : ∀ (data : Nat → Nat) (uuid : Nat),
      CheckAdvPacketForServiceUuid data 0 uuid = fieldSp data uuid 0 := by
    intro data uuid
    show checkAdvGo data 0 uuid 0 0 = fieldSp data uuid 0
    rw [checkAdvGo_zero]
    cases hf : fieldSp data uuid 0 with
    | none => rfl
    | some sp =>
      rw [Option.some_bind, if_neg]
      rintro ⟨h, -⟩; omega
  refine ⟨?_, hbody⟩
  intro data dataLen uuid hnz
  cases dataLen with
  | zero =>
    have h0 : data 0 % 256 ≠ 0 := by
      have := hnz 0 (by rw [scannedStarts]; simp)
      exact this
    rw [hbody data uuid, fieldSp_eq_of_len_ne_zero data uuid 0 h0]
    rfl
  | succ d =>
    have hpos : 0 < d + 1 := Nat.succ_pos d
    have hsc : scannedStarts data (d + 1) = specFieldStarts data (d + 1) := by
      rw [scannedStarts, if_neg (by omega)]
    rw [hsc] at hnz
    have hfe : specFieldStartsAux data (d + 1) ((d + 1) + 1) 0 =
        specFieldStarts data (d + 1) :=
      specFieldStartsAux_fuel data (d + 1) ((d + 1) + 1) (d + 1) 0 (by omega) (by omega)
    have hnz' : ∀ pos ∈ specFieldStartsAux data (d + 1) ((d + 1) + 1) 0,
        data pos % 256 ≠ 0 := by
      rw [hfe]; exact hnz
    have h0mem : (0 : Nat) ∈ specFieldStarts data (d + 1) := by
      show (0 : Nat) ∈ specFieldStartsAux data (d + 1) (d + 1) 0
      rw [specFieldStartsAux_succ, if_pos hpos]
      exact List.mem_cons_self _ _
    exact checkAdvGo_isSome data (d + 1) uuid (d + 1) 0 (by omega) (hnz 0 h0mem) hnz'

/-- C10 witness: termination on a concrete well-formed report. -/
theorem checkAdv_terminates_witness :
    (∀ pos ∈ scannedStarts advDataOk 4, advDataOk pos % 256 ≠ 0) ∧
    (CheckAdvPacketForServiceUuid advDataOk 4 6176).isSome = true :=
  ⟨by decide, checkAdv_terminates_on_nonzero_length_fields.1 advDataOk 4 6176 (by decide)⟩

/-- C10 counterexample: a concrete report with a zero length byte on a
16-bit-UUID-list field and no matching value anywhere, on which the inner loop
of `CheckAdvPacketForServiceUuid` never terminates (the embedding returns
`none`), refuting the claim that the function terminates for every input. -/
theorem checkAdv_divergence_on_zero_length_field :
    CheckAdvPacketForServiceUuid advDataDiv 2 6176 = none := by
  have hs : uuidSearchB advDataDiv 6176 0 4294967295 = false := by
    unfold uuidSearchB
    rw [List.any_eq_false]
    intro i hi
    have h2 : advDataDiv (0 + 2 + i) = 0 :=
      List.getD_eq_default _ _ (by simp only [List.length_cons, List.length_nil]; omega)
    have h3 : advDataDiv (0 + 2 + i + 1) = 0 :=
      List.getD_eq_default _ _ (by simp only [List.length_cons, List.length_nil]; omega)
    simp [cyBleGet16ByPtr, h2, h3]
  have hf : fieldSp advDataDiv 6176 0 = none := by
    unfold fieldSp
    rw [if_pos (by decide), if_pos (by decide), hs, if_neg (by simp)]
  show checkAdvGo advDataDiv 2 6176 (1 + 1) 0 = none
  rw [checkAdvGo_succ, hf]
  rfl

/-- C2 counterexample: a channel-open confirmation whose response is the error
status 2 still sets `l2capConnected` to true — the handler never inspects the
response, so the channel becomes open instead of being closed, refuting the
claim as stated. -/
theorem connCnf_error_still_marks_connected :
    errConnCnf.response ≠ 0 ∧
    (dispatch initState CyBleState.connected (BleEvent.l2capConnCnf errConnCnf)).map
      (fun p => p.1.l2capConnected) = some true := by
  exact ⟨by decide, rfl⟩

/-- C2 (amended): processing a channel-open confirmation stores the parameters
and sets `l2capConnected` to true unconditionally — also when the response
carries an error status; the response value is only reported, and no close is
issued. -/
theorem connCnf_unconditionally_connects (s : AppState) (bs : CyBleState)
    (param : ConnCnfParam) :
    dispatch s bs (BleEvent.l2capConnCnf param) =
      some ({ s with l2capParameters := param, l2capConnected := true },
        [Action.printConnCnf param.response]) := rfl

/-- C3: a receive-credit replenishment grant of `LE_DATA_CREDITS_IPSP` is sent
exactly in the dispatch step that processes `CYBLE_EVT_L2CAP_CBFC_RX_CREDIT_IND`
(the event the modelled stack raises exactly when remaining credits cross the
registered low-water mark from above to at-or-below), no other dispatch step
ever emits a grant, and the low-water mark is registered at stack-on. -/
theorem credit_grant_iff_rx_credit_event :
    (∀ (s : AppState) (bs : CyBleState) (lCid creditsBefore creditsAfter : Nat),
      rxCreditIndRaised creditsBefore creditsAfter →
      dispatch s bs (BleEvent.l2capRxCreditInd lCid creditsAfter) =
        some (s, [Action.sendFlowControlCredit lCid LE_DATA_CREDITS_IPSP]))
    ∧ (∀ (s : AppState) (bs : CyBleState) (ev : BleEvent) (s' : AppState)
        (acts : List Action) (lCid c : Nat),
      dispatch s bs ev = some (s', acts) →
      Action.sendFlowControlCredit lCid c ∈ acts →
      c = LE_DATA_CREDITS_IPSP ∧ ∃ cr, ev = BleEvent.l2capRxCreditInd lCid cr)
    ∧ (∀ (s : AppState) (bs : CyBleState),
      dispatch s bs BleEvent.stackOn =
        some (s, [Action.registerPsm CYBLE_L2CAP_PSM_LE_PSM_IPSP LE_WATER_MARK_IPSP,
          Action.startScan])) := by
  refine ⟨fun s bs lCid b a h => rfl, ?_, fun s bs => rfl⟩
  intro s bs ev s' acts lCid c hd hm
  cases ev with
  | stackOn =>
    simp only [dispatch, Option.some.injEq, Prod.mk.injEq] at hd
    obtain ⟨-, rfl⟩ := hd
    simp at hm
  | scanProgressResult report =>
    simp only [dispatch, Option.map_eq_some'] at hd
    obtain ⟨a, -, h2⟩ := hd
    obtain ⟨-, rfl⟩ := Prod.mk.injEq .. ▸ h2
    simp at hm
  | scanStartStop =>
    simp only [dispatch] at hd
    split_ifs at hd <;>
      (simp only [Option.some.injEq, Prod.mk.injEq] at hd;
       obtain ⟨-, rfl⟩ := hd; simp at hm)
  | deviceDisconnected reason =>
    simp only [dispatch, Option.some.injEq, Prod.mk.injEq] at hd
    obtain ⟨-, rfl⟩ := hd
    simp at hm
  | gattConnectInd =>
    simp only [dispatch, Option.some.injEq, Prod.mk.injEq] at hd
    obtain ⟨-, rfl⟩ := hd
    simp at hm
  | l2capConnCnf param =>
    simp only [dispatch, Option.some.injEq, Prod.mk.injEq] at hd
    obtain ⟨-, rfl⟩ := hd
    simp at hm
  | l2capDisconnInd reason =>
    simp only [dispatch, Option.some.injEq, Prod.mk.injEq] at hd
    obtain ⟨-, rfl⟩ := hd
    simp at hm
  | l2capDataRead rx len =>
    simp only [dispatch] at hd
    split_ifs at hd <;>
      (simp only [Option.some.injEq, Prod.mk.injEq] at hd;
       obtain ⟨-, rfl⟩ := hd; simp at hm)
  | l2capRxCreditInd l cr =>
    simp only [dispatch, Option.some.injEq, Prod.mk.injEq] at hd
    obtain ⟨-, rfl⟩ := hd
    simp only [List.mem_singleton] at hm
    obtain ⟨h1, h2⟩ := Action.sendFlowControlCredit.injEq .. ▸ hm
    exact ⟨h2, cr, by rw [h1]⟩
  | otherEvent code =>
    simp only [dispatch, Option.some.injEq, Prod.mk.injEq] at hd
    obtain ⟨-, rfl⟩ := hd
    simp at hm

/-- C3 witness: the theorem applied at a concrete crossing of the mark (credits
60 → 40 across mark 50) and at a concrete grant-emitting dispatch. -/
theorem credit_grant_iff_rx_credit_event_witness :
    rxCreditIndRaised 60 40 ∧
    dispatch initState CyBleState.connected (BleEvent.l2capRxCreditInd 64 40) =
      some (initState, [Action.sendFlowControlCredit 64 LE_DATA_CREDITS_IPSP]) :=
  ⟨⟨by decide, by decide⟩,
    credit_grant_iff_rx_credit_event.1 initState CyBleState.connected 64 60 40
      ⟨by decide, by decide⟩⟩

theorem scanResultHandler_peerList (s : AppState) (report : AdvReport) (s' : AppState)
    (h : scanResultHandler s report = some s') :
    s'.peerList = s.peerList ∨
    ∃ key, s'.peerList = s.peerList ++ [⟨key, report.peerAddrType⟩] ∧
      (∀ e ∈ s.peerList, e.bdAddr ≠ key) ∧
      s.peerList.length < CYBLE_MAX_ADV_DEVICES := by
  unfold scanResultHandler at h
  cases hc : CheckAdvPacketForServiceUuid report.data report.dataLen
      CYBLE_UUID_INTERNET_PROTOCOL_SUPPORT_SERVICE with
  | none =>
    rw [hc] at h
    cases h
  | some r =>
    rw [hc] at h
    dsimp only at h
    split_ifs at h with h1 h2
    · simp only [Option.some.injEq] at h
      subst h
      exact Or.inr ⟨addrKey report.peerBdAddr, rfl, h2.1, h2.2⟩
    · simp only [Option.some.injEq] at h
      subst h
      exact Or.inl rfl
    · simp only [Option.some.injEq] at h
      subst h
      exact Or.inl rfl

theorem dispatch_peerList (s : AppState) (bs : CyBleState) (ev : BleEvent)
    (s' : AppState) (acts : List Action)
    (hd : dispatch s bs ev = some (s', acts)) :
    s'.peerList = s.peerList ∨
    ∃ report key, ev = BleEvent.scanProgressResult report ∧
      s'.peerList = s.peerList ++ [⟨key, report.peerAddrType⟩] ∧
      (∀ e ∈ s.peerList, e.bdAddr ≠ key) ∧
      s.peerList.length < CYBLE_MAX_ADV_DEVICES := by
  cases ev with
  | scanProgressResult report =>
    simp only [dispatch, Option.map_eq_some'] at hd
    obtain ⟨a, ha, h2⟩ := hd
    obtain ⟨rfl, -⟩ := Prod.mk.injEq .. ▸ h2
    rcases scanResultHandler_peerList s report _ ha with h | ⟨key, hpl, hnew, hlt⟩
    · exact Or.inl h
    · exact Or.inr ⟨report, key, rfl, hpl, hnew, hlt⟩
  | stackOn =>
    simp only [dispatch, Option.some.injEq, Prod.mk.injEq] at hd
    obtain ⟨rfl, -⟩ := hd
    exact Or.inl rfl
  | scanStartStop =>
    simp only [dispatch] at hd
    split_ifs at hd <;>
      (simp only [Option.some.injEq, Prod.mk.injEq] at hd;
       obtain ⟨rfl, -⟩ := hd; exact Or.inl rfl)
  | deviceDisconnected reason =>
    simp only [dispatch, Option.some.injEq, Prod.mk.injEq] at hd
    obtain ⟨rfl, -⟩ := hd
    exact Or.inl rfl
  | gattConnectInd =>
    simp only [dispatch, Option.some.injEq, Prod.mk.injEq] at hd
    obtain ⟨rfl, -⟩ := hd
    exact Or.inl rfl
  | l2capConnCnf param =>
    simp only [dispatch, Option.some.injEq, Prod.mk.injEq] at hd
    obtain ⟨rfl, -⟩ := hd
    exact Or.inl rfl
  | l2capDisconnInd reason =>
    simp only [dispatch, Option.some.injEq, Prod.mk.injEq] at hd
    obtain ⟨rfl, -⟩ := hd
    exact Or.inl rfl
  | l2capDataRead rx len =>
    simp only [dispatch] at hd
    split_ifs at hd <;>
      (simp only [Option.some.injEq, Prod.mk.injEq] at hd;
       obtain ⟨rfl, -⟩ := hd; exact Or.inl rfl)
  | l2capRxCreditInd l cr =>
    simp only [dispatch, Option.some.injEq, Prod.mk.injEq] at hd
    obtain ⟨rfl, -⟩ := hd
    exact Or.inl rfl
  | otherEvent code =>
    simp only [dispatch, Option.some.injEq, Prod.mk.injEq] at hd
    obtain ⟨rfl, -⟩ := hd
    exact Or.inl rfl

theorem dispatch_registry_invariant (s : AppState) (bs : CyBleState) (ev : BleEvent)
    (s' : AppState) (acts : List Action)
    (hd : dispatch s bs ev = some (s', acts))
    (hlen : s.peerList.length ≤ CYBLE_MAX_ADV_DEVICES)
    (hnd : (s.peerList.map PeerEntry.bdAddr).Nodup) :
    s'.peerList.length ≤ CYBLE_MAX_ADV_DEVICES ∧
      (s'.peerList.map PeerEntry.bdAddr).Nodup := by
  rcases dispatch_peerList s bs ev s' acts hd with h | ⟨report, key, -, hpl, hnew, hlt⟩
  · rw [h]
    exact ⟨hlen, hnd⟩
  · rw [hpl]
    constructor
    · simp only [List.length_append, List.length_singleton]
      omega
    · rw [List.map_append, List.map_singleton]
      rw [List.nodup_append]
      refine ⟨hnd, List.nodup_singleton _, ?_⟩
      intro a ha hb
      simp only [List.mem_singleton] at hb
      subst hb
      obtain ⟨e, he, rfl⟩ := List.mem_map.mp ha
      exact hnew e he rfl

theorem processEvents_registry_invariant :
    ∀ (evs : List (CyBleState × BleEvent)) (s s' : AppState),
      processEvents s evs = some s' →
      s.peerList.length ≤ CYBLE_MAX_ADV_DEVICES →
      (s.peerList.map PeerEntry.bdAddr).Nodup →
      s'.peerList.length ≤ CYBLE_MAX_ADV_DEVICES ∧
        (s'.peerList.map PeerEntry.bdAddr).Nodup := by
  intro evs
  induction evs with
  | nil =>
    intro s s' h hl hn
    simp only [processEvents, Option.some.injEq] at h
    subst h
    exact ⟨hl, hn⟩
  | cons e rest ih =>
    intro s s' h hl hn
    unfold processEvents at h
    cases hd : dispatch s e.1 e.2 with
    | none =>
      rw [hd] at h
      cases h
    | some p =>
      rw [hd] at h
      simp only [Option.map_some', Option.some_bind] at h
      obtain ⟨h1, h2⟩ :=
        dispatch_registry_invariant s e.1 e.2 p.1 p.2 (by rw [hd]) hl hn
      exact ih p.1 s' h h1 h2

/-- C4: over every sequence of delivered events the peer registry never holds
two entries with the same address bytes and never exceeds the fixed capacity
`CYBLE_MAX_ADV_DEVICES`; moreover a sighting arriving with the registry full
leaves the registry unchanged. -/
theorem peer_registry_invariant :
    (∀ (evs : List (CyBleState × BleEvent)) (s' : AppState),
      processEvents initState evs = some s' →
      s'.peerList.length ≤ CYBLE_MAX_ADV_DEVICES ∧
        (s'.peerList.map PeerEntry.bdAddr).Nodup)
    ∧ (∀ (s : AppState) (bs : CyBleState) (report : AdvReport) (s' : AppState)
        (acts : List Action),
      s.peerList.length = CYBLE_MAX_ADV_DEVICES →
      dispatch s bs (BleEvent.scanProgressResult report) = some (s', acts) →
      s'.peerList = s.peerList) := by
  constructor
  · intro evs s' h
    exact processEvents_registry_invariant evs initState s' h
      (by simp [initState]) (by simp [initState])
  · intro s bs report s' acts hfull hd
    rcases dispatch_peerList s bs _ s' acts hd with h | ⟨-, -, -, -, -, hlt⟩
    · exact h
    · omega

/-- C4 witness: the invariant applied to a concrete two-sighting trace (the
same matching peer seen twice). -/
theorem peer_registry_invariant_witness :
    ∃ s', processEvents initState evsC4 = some s' ∧
      s'.peerList.length ≤ CYBLE_MAX_ADV_DEVICES ∧
      (s'.peerList.map PeerEntry.bdAddr).Nodup := by
  obtain ⟨s', hs⟩ : ∃ s', processEvents initState evsC4 = some s' := ⟨_, rfl⟩
  exact ⟨s', hs, peer_registry_invariant.1 evsC4 s' hs⟩

/-- C5: a delivered payload is compared byte-exactly (over the payload length
`L2CAP_MAX_LEN`) against the last transmitted loopback buffer: on a match the
handler arms `custom_command` with the transfer command, and the next main-loop
pass generates and writes the next payload; on any byte mismatch the handler
only reports the validation failure, `custom_command` stays unarmed, and the
next main-loop pass does nothing, so the loop halts until externally re-armed. -/
theorem loopback_validation_behavior :
    (∀ (s : AppState) (bs : CyBleState) (rx : Nat → Nat) (len : Nat),
      memcmpZero s.ipv6LoopbackBuffer rx L2CAP_MAX_LEN = true →
      dispatch s bs (BleEvent.l2capDataRead rx len) =
        some ({ s with custom_command := 49 }, []))
    ∧ (∀ (s : AppState) (digit : Nat), s.custom_command = 49 →
      mainStep s 0 digit false =
        ({ s with
            custom_command := 0
            ipv6LoopbackBuffer := fillLoopbackByte s.counter
            counter := (s.counter + L2CAP_MAX_LEN / 2) % 65536 },
          [Action.l2capDataWrite s.l2capParameters.lCid (fillLoopbackByte s.counter)
            L2CAP_MAX_LEN]))
    ∧ (∀ (s : AppState) (bs : CyBleState) (rx : Nat → Nat) (len : Nat),
      memcmpZero s.ipv6LoopbackBuffer rx L2CAP_MAX_LEN = false →
      dispatch s bs (BleEvent.l2capDataRead rx len) =
        some (s, [Action.printWraparoundFailed]))
    ∧ (∀ (s : AppState) (digit : Nat) (busy : Bool), s.custom_command = 0 →
      mainStep s 0 digit busy = (s, [])) := by
  refine ⟨?_, ?_, ?_, ?_⟩
  · intro s bs rx len h
    simp only [dispatch, h]
    rfl
  · intro s digit h
    have hcc : s.custom_command ≠ 0 := by omega
    simp only [mainStep, runCommand, h]
    norm_num
  · intro s bs rx len h
    simp only [dispatch, h]
    rfl
  · intro s digit busy h
    simp [mainStep, h]

/-- C5 witness: the four conjuncts applied at concrete states — an all-zero
loopback buffer matched by an all-zero echo and mismatched by an all-one echo. -/
theorem loopback_validation_behavior_witness :
    (memcmpZero initState.ipv6LoopbackBuffer (fun _ => 0) L2CAP_MAX_LEN = true ∧
      dispatch initState CyBleState.connected (BleEvent.l2capDataRead (fun _ => 0) 1280) =
        some ({ initState with custom_command := 49 }, [])) ∧
    (memcmpZero initState.ipv6LoopbackBuffer (fun _ => 1) L2CAP_MAX_LEN = false ∧
      dispatch initState CyBleState.connected (BleEvent.l2capDataRead (fun _ => 1) 1280) =
        some (initState, [Action.printWraparoundFailed])) ∧
    mainStep sArmed 0 0 false =
      ({ sArmed with
          custom_command := 0
          ipv6LoopbackBuffer := fillLoopbackByte sArmed.counter
          counter := (sArmed.counter + L2CAP_MAX_LEN / 2) % 65536 },
        [Action.l2capDataWrite sArmed.l2capParameters.lCid
          (fillLoopbackByte sArmed.counter) L2CAP_MAX_LEN]) ∧
    mainStep initState 0 0 false = (initState, []) := by
  have h1 : memcmpZero initState.ipv6LoopbackBuffer (fun _ => 0) L2CAP_MAX_LEN = true := by
    decide
  have h2 : memcmpZero initState.ipv6LoopbackBuffer (fun _ => 1) L2CAP_MAX_LEN = false := by
    decide
  exact ⟨⟨h1, loopback_validation_behavior.1 initState CyBleState.connected (fun _ => 0) 1280 h1⟩,
    ⟨h2, loopback_validation_behavior.2.2.1 initState CyBleState.connected (fun _ => 1) 1280 h2⟩,
    loopback_validation_behavior.2.1 sArmed 0 rfl,
    loopback_validation_behavior.2.2.2 initState 0 false rfl⟩

/-- C6: a disconnect event delivered while the stack is connected arrives with
the stack already back in the disconnected state, and the same dispatch restarts
scanning, so the full step — which takes no operator input — ends in the
scanning state with the application state untouched. -/
theorem disconnect_auto_rescan (s : AppState) (bs : CyBleState) (reason : Nat)
    (h : bs = CyBleState.connected) :
    eventStackState bs (BleEvent.deviceDisconnected reason) = CyBleState.disconnected ∧
    fullStep s bs (BleEvent.deviceDisconnected reason) =
      some (s, CyBleState.scanning) := by
  subst h
  exact ⟨rfl, rfl⟩

/-- C6 witness: the theorem at a concrete state and reason code. -/
theorem disconnect_auto_rescan_witness :
    eventStackState CyBleState.connected (BleEvent.deviceDisconnected 19) =
      CyBleState.disconnected ∧
    fullStep initState CyBleState.connected (BleEvent.deviceDisconnected 19) =
      some (initState, CyBleState.scanning) :=
  disconnect_auto_rescan initState CyBleState.connected 19 rfl

/-- C7: `CyBle_GapcConnectDevice` is issued only in the dispatch of the
scan-stop acknowledgment while the stack is disconnected and the connecting
intent is recorded, and it targets the registry entry selected by `deviceN`;
no console command ever issues it directly, and the connect command only stops
the scan and records the connecting intent. -/
theorem connect_only_after_scan_stopped :
    (∀ (s : AppState) (bs : CyBleState) (ev : BleEvent) (s' : AppState)
        (acts : List Action) (p : PeerEntry),
      dispatch s bs ev = some (s', acts) → Action.connectDevice p ∈ acts →
      ev = BleEvent.scanStartStop ∧ bs = CyBleState.disconnected ∧
        s.state = STATE_CONNECTING ∧ p = s.peerList.getD s.deviceN defaultPeer)
    ∧ (∀ (s : AppState) (u digit : Nat) (busy : Bool) (p : PeerEntry),
      Action.connectDevice p ∉ (mainStep s u digit busy).2)
    ∧ (∀ (s : AppState) (digit : Nat), s.custom_command = 0 →
      mainStep s 99 digit false =
        ({ s with state := STATE_CONNECTING }, [Action.stopScan])) := by
  refine ⟨?_, ?_, ?_⟩
  · intro s bs ev s' acts p hd hm
    cases ev with
    | scanStartStop =>
      simp only [dispatch] at hd
      split_ifs at hd with hbs hst
      · simp only [Option.some.injEq, Prod.mk.injEq] at hd
        obtain ⟨-, rfl⟩ := hd
        simp only [List.mem_singleton] at hm
        obtain h := Action.connectDevice.injEq .. ▸ hm
        exact ⟨rfl, hbs, hst, h⟩
      · simp only [Option.some.injEq, Prod.mk.injEq] at hd
        obtain ⟨-, rfl⟩ := hd
        simp at hm
      · simp only [Option.some.injEq, Prod.mk.injEq] at hd
        obtain ⟨-, rfl⟩ := hd
        simp at hm
    | stackOn =>
      simp only [dispatch, Option.some.injEq, Prod.mk.injEq] at hd
      obtain ⟨-, rfl⟩ := hd
      simp at hm
    | scanProgressResult report =>
      simp only [dispatch, Option.map_eq_some'] at hd
      obtain ⟨a, -, h2⟩ := hd
      obtain ⟨-, rfl⟩ := Prod.mk.injEq .. ▸ h2
      simp at hm
    | deviceDisconnected reason =>
      simp only [dispatch, Option.some.injEq, Prod.mk.injEq] at hd
      obtain ⟨-, rfl⟩ := hd
      simp at hm
    | gattConnectInd =>
      simp only [dispatch, Option.some.injEq, Prod.mk.injEq] at hd
      obtain ⟨-, rfl⟩ := hd
      simp at hm
    | l2capConnCnf param =>
      simp only [dispatch, Option.some.injEq, Prod.mk.injEq] at hd
      obtain ⟨-, rfl⟩ := hd
      simp at hm
    | l2capDisconnInd reason =>
      simp only [dispatch, Option.some.injEq, Prod.mk.injEq] at hd
      obtain ⟨-, rfl⟩ := hd
      simp at hm
    | l2capDataRead rx len =>
      simp only [dispatch] at hd
      split_ifs at hd <;>
        (simp only [Option.some.injEq, Prod.mk.injEq] at hd;
         obtain ⟨-, rfl⟩ := hd; simp at hm)
    | l2capRxCreditInd l cr =>
      simp only [dispatch, Option.some.injEq, Prod.mk.injEq] at hd
      obtain ⟨-, rfl⟩ := hd
      simp at hm
    | otherEvent code =>
      simp only [dispatch, Option.some.injEq, Prod.mk.injEq] at hd
      obtain ⟨-, rfl⟩ := hd
      simp at hm
  · intro s u digit busy p
    unfold mainStep runCommand
    split_ifs <;> simp
  · intro s digit h
    simp only [mainStep, runCommand, h]
    norm_num

/-- C7 witness: with the connecting intent recorded and the stack reporting
disconnected, the scan-stop acknowledgment dispatch issues the connect to the
selected registry entry, and the theorem recovers exactly those conditions; the
connect command itself only stops the scan. -/
theorem connect_only_after_scan_stopped_witness :
    (BleEvent.scanStartStop = BleEvent.scanStartStop ∧
      CyBleState.disconnected = CyBleState.disconnected ∧
      sC7.state = STATE_CONNECTING ∧
      peC9 = sC7.peerList.getD sC7.deviceN defaultPeer) ∧
    mainStep initState 99 0 false =
      ({ initState with state := STATE_CONNECTING }, [Action.stopScan]) :=
  ⟨connect_only_after_scan_stopped.1 sC7 CyBleState.disconnected BleEvent.scanStartStop
      sC7 [Action.connectDevice peC9] peC9 rfl (List.mem_singleton.mpr rfl),
    connect_only_after_scan_stopped.2.2 initState 0 rfl⟩

/-- C8: the dispatch of the link-connected event automatically issues the
channel-open request carrying exactly the three local parameters: the MTU, the
MPS, and the initial receive credits granted to the peer. -/
theorem gatt_connect_triggers_channel_open (s : AppState) (bs : CyBleState) :
    dispatch s bs BleEvent.gattConnectInd =
      some (s, [Action.l2capConnectReq CYBLE_L2CAP_MTU CYBLE_L2CAP_MPS
        LE_DATA_CREDITS_IPSP]) := rfl

/-- C9: duplicate detection compares only the six address bytes: a sighting
whose address equals a stored entry's address is not added even when its
address kind differs, and the stored entry — including its kind — is never
updated. -/
theorem duplicate_detection_ignores_addr_kind (s : AppState) (bs : CyBleState)
    (report : AdvReport) (s' : AppState) (acts : List Action) (e : PeerEntry)
    (hmem : e ∈ s.peerList)
    (haddr : e.bdAddr = addrKey report.peerBdAddr)
    (_hkind : e.addrType ≠ report.peerAddrType)
    (hd : dispatch s bs (BleEvent.scanProgressResult report) = some (s', acts)) :
    s'.peerList = s.peerList := by
  simp only [dispatch, Option.map_eq_some'] at hd
  obtain ⟨a, ha, h2⟩ := hd
  obtain ⟨rfl, -⟩ := Prod.mk.injEq .. ▸ h2
  unfold scanResultHandler at ha
  cases hc : CheckAdvPacketForServiceUuid report.data report.dataLen
      CYBLE_UUID_INTERNET_PROTOCOL_SUPPORT_SERVICE with
  | none =>
    rw [hc] at ha
    cases ha
  | some r =>
    rw [hc] at ha
    dsimp only at ha
    split_ifs at ha with h1 h2'
    · exact absurd (h2'.1 e hmem) (by simp [haddr])
    · simp only [Option.some.injEq] at ha
      subst ha
      rfl
    · simp only [Option.some.injEq] at ha
      subst ha
      rfl

/-- C9 witness: the theorem applied to a concrete registry holding the address
with kind 0 and a sighting of the same address with kind 1. -/
theorem duplicate_detection_ignores_addr_kind_witness :
    ∃ s' acts,
      dispatch sC9 CyBleState.scanning (BleEvent.scanProgressResult rptC9) =
        some (s', acts) ∧ s'.peerList = sC9.peerList := by
  refine ⟨sC9, [], rfl, ?_⟩
  exact duplicate_detection_ignores_addr_kind sC9 CyBleState.scanning rptC9 sC9 []
    peC9 (List.mem_singleton.mpr rfl) rfl (by decide) rfl

end BleIpspRouter
